import Mathlib

/- Verification of the GründerAI adaptive assessment core: a shallow embedding
of the IRT/CAT functions from pure_python_irt.py, irt_cat_engine.py,
sample_items.py and integrated_assessment_system.py, with theorems checking
the specified properties of the GRM probability model, Fisher information,
theta estimation, item selection and the session stopping rule. -/

/-- Overflow-guarded logistic function. Both engines use the same guard:
`if x > 500: 1.0 elif x < -500: 0.0 else 1/(1+exp(-x))`
(`safe_logistic` in pure_python_irt.py, inlined in irt_cat_engine.py). -/
noncomputable def safeLogistic (x : ℝ) : ℝ :=
  if 500 < x then 1 else if x < -500 then 0 else 1 / (1 + Real.exp (-x))

/-- Item record of irt_cat_engine.py (`PersonalityItem` dataclass). The
dataclass performs no validation of its fields. -/
structure PersonalityItem where
  item_id : String
  dimension : String
  text_de : String
  text_en : String
  discrimination : ℝ
  difficulty_thresholds : List ℝ

/-- `IRTCATEngine.grm_probability` from irt_cat_engine.py: builds the list
`[0.0] + [F(a*(theta-b)) for b in thresholds] + [1.0]`, then returns
`max(cp[r] - cp[r-1], 0.001)`, or `0.001` when the response index is out of
range. -/
noncomputable def grmProbabilityCat (θ : ℝ) (item : PersonalityItem) (response : ℤ) : ℝ :=
  let cumulativeProbs : List ℝ :=
    (0 : ℝ) :: (item.difficulty_thresholds.map
      (fun b => safeLogistic (item.discrimination * (θ - b))) ++ [1])
  let responseIndex : ℤ := response - 1
  if responseIndex < 0 ∨ (cumulativeProbs.length : ℤ) - 1 ≤ responseIndex then 0.001
  else
    max (cumulativeProbs.getD (responseIndex.toNat + 1) 0 -
         cumulativeProbs.getD responseIndex.toNat 0) 0.001

/-- `IRTCATEngine.fisher_information` from irt_cat_engine.py: sums
`a*a*p*(1-p)` over the thresholds whose exponent argument lies strictly
inside (-500, 500); saturated terms are skipped, and there is no positive
floor on the result. -/
noncomputable def fisherInformationCat (θ : ℝ) (item : PersonalityItem) : ℝ :=
  item.difficulty_thresholds.foldl
    (fun totalInfo b =>
      let expVal := item.discrimination * (θ - b)
      if -500 < expVal ∧ expVal < 500 then
        totalInfo + (item.discrimination * item.discrimination) *
          (1 / (1 + Real.exp (-expVal))) * (1 - 1 / (1 + Real.exp (-expVal)))
      else totalInfo)
    0

/-- `IRTCATEngine.update_theta` from irt_cat_engine.py: a fixed-step nudge of
theta (+0.2 for responses >= 4, -0.2 for responses <= 2, 0.1*(r-3) otherwise),
clamped to [-3, 3]; the standard error is 1/sqrt(fisher) when the information
is positive, else 1.0. (The probability the source computes first is unused
for the update.) -/
noncomputable def updateThetaCat (currentTheta : ℝ) (item : PersonalityItem) (response : ℤ) : ℝ × ℝ :=
  let newTheta0 : ℝ :=
    if 4 ≤ response then currentTheta + 0.2
    else if response ≤ 2 then currentTheta - 0.2
    else currentTheta + 0.1 * ((response : ℝ) - 3)
  let newTheta := max (-3) (min 3 newTheta0)
  let fisherInfo := fisherInformationCat newTheta item
  let se := if 0 < fisherInfo then 1 / Real.sqrt fisherInfo else 1
  (newTheta, se)

/-- Item record used by pure_python_irt.py, which passes plain dicts with
keys `item_id`, `dimension`, `discrimination`, `difficulty_thresholds`. -/
structure ItemPP where
  item_id : String
  dimension : String
  discrimination : ℝ
  difficulty_thresholds : List ℝ

/-- Python list indexing `l[i]`: nonnegative indices from the front, negative
indices from the back, and `none` (IndexError) when out of range either way. -/
def pyGet (l : List ℝ) (i : ℤ) : Option ℝ :=
  if 0 ≤ i then l.get? i.toNat
  else if 0 ≤ i + (l.length : ℤ) then l.get? (i + (l.length : ℤ)).toNat
  else none

/-- `GruenderAIEngine.grm_probability` from pure_python_irt.py: category 1
returns `safe_logistic(-z1)`, category 5 returns `safe_logistic(z_last)`
(neither is floored), every other category returns
`max(0.001, F(z[c-2]) - F(z[c-1]))`; an IndexError anywhere is caught and
the fallback 0.001 is returned. -/
noncomputable def grmProbabilityPP (θ discrimination : ℝ) (difficultyThresholds : List ℝ)
    (category : ℤ) : ℝ :=
  if category = 1 then
    match pyGet difficultyThresholds 0 with
    | some b => safeLogistic (-(discrimination * (θ - b)))
    | none => 0.001
  else if category = 5 then
    match pyGet difficultyThresholds (-1) with
    | some b => safeLogistic (discrimination * (θ - b))
    | none => 0.001
  else
    match pyGet difficultyThresholds (category - 2), pyGet difficultyThresholds (category - 1) with
    | some b1, some b2 =>
        max 0.001 (safeLogistic (discrimination * (θ - b1)) -
                   safeLogistic (discrimination * (θ - b2)))
    | _, _ => 0.001

/-- `GruenderAIEngine.fisher_information` from pure_python_irt.py: sums
`a^2*p*(1-p)` over categories 1..5 whose probability exceeds 0.001, and
floors the total at 0.001. -/
noncomputable def fisherInformationPP (θ discrimination : ℝ) (difficultyThresholds : List ℝ) : ℝ :=
  let total := ([1, 2, 3, 4, 5] : List ℤ).foldl
    (fun totalInfo category =>
      let prob := grmProbabilityPP θ discrimination difficultyThresholds category
      if 0.001 < prob then totalInfo + discrimination ^ 2 * prob * (1 - prob) else totalInfo)
    0
  max total 0.001

/-- Accumulated log-likelihood of `GruenderAIEngine.estimate_theta` at a
candidate theta: over `zip(responses, items)`, add `log(prob)` when the
probability exceeds 0.001 and `log(0.001)` otherwise. -/
noncomputable def logLikPP (responses : List ℤ) (items : List ItemPP) (θ : ℝ) : ℝ :=
  (responses.zip items).foldl
    (fun acc p =>
      let prob := grmProbabilityPP θ p.2.discrimination p.2.difficulty_thresholds p.1
      if 0.001 < prob then acc + Real.log prob else acc + Real.log 0.001)
    0

/-- The candidate grid `[i * 0.1 for i in range(-30, 31)]` of
`estimate_theta`, re-indexed over `0..60`. -/
noncomputable def gridThetas : List ℝ :=
  (List.range 61).map (fun i : ℕ => ((i : ℝ) - 30) * 0.1)

/-- The best-theta scan of `estimate_theta`: keep `(best_theta,
best_likelihood)` and update on a strict improvement. -/
noncomputable def bestSearch (f : ℝ → ℝ) (grid : List ℝ) (init : ℝ × ℝ) : ℝ × ℝ :=
  grid.foldl (fun best t => if best.2 < f t then (t, f t) else best) init

/-- `GruenderAIEngine.estimate_theta` from pure_python_irt.py: with no
responses or no items return (0.0, 1.0); otherwise scan the grid starting
from `best_theta = 0.0, best_likelihood = -999999`, then convert total
Fisher information at the best theta into a standard error clamped to
[0.1, 2.0]. -/
noncomputable def estimateThetaPP (responses : List ℤ) (items : List ItemPP) : ℝ × ℝ :=
  if responses.isEmpty || items.isEmpty then (0, 1)
  else
    let best := bestSearch (logLikPP responses items) gridThetas (0, -999999)
    let totalInfo := (items.map
      (fun it => fisherInformationPP best.1 it.discrimination it.difficulty_thresholds)).sum
    let standardError := 1 / Real.sqrt (max totalInfo 0.1)
    (best.1, min 2 (max 0.1 standardError))

/-- The best-item scan of `select_next_item`: keep `(best_item, max_info)`
and update on a strict improvement in Fisher information. -/
noncomputable def selectScan (currentTheta : ℝ) (candidates : List ItemPP)
    (init : Option ItemPP × ℝ) : Option ItemPP × ℝ :=
  candidates.foldl
    (fun best it =>
      let info := fisherInformationPP currentTheta it.discrimination it.difficulty_thresholds
      if best.2 < info then (some it, info) else best)
    init

/-- `GruenderAIEngine.select_next_item` from pure_python_irt.py: drop used
item ids, return `None` on an empty pool or empty candidate list, otherwise
scan for the candidate with maximal Fisher information starting from
`best_item = None, max_info = -1`. -/
noncomputable def selectNextItemPP (currentTheta : ℝ) (availableItems : List ItemPP)
    (usedItems : List String) : Option ItemPP :=
  if availableItems.isEmpty then none
  else
    let candidates := availableItems.filter (fun it => !usedItems.contains it.item_id)
    if candidates.isEmpty then none
    else (selectScan currentTheta candidates ((none : Option ItemPP), -1)).1

/-- Repeated adaptive selection: call `select_next_item`, record the selected
item id into the administered set, and continue; stop on `None`. Returns the
ids in selection order. -/
noncomputable def runSelection (θ : ℝ) (avail : List ItemPP) : ℕ → List String → List String
  | 0, _ => []
  | Nat.succ n, used =>
    match selectNextItemPP θ avail used with
    | none => []
    | some it => it.item_id :: runSelection θ avail n (it.item_id :: used)

/-- The session state consulted by
`IntegratedGruenderAI.should_stop_assessment` (integrated_assessment_system.py),
with the float fields modelled exactly as rationals. -/
structure StopSession where
  current_item : ℕ
  max_items : ℕ
  target_se : ℚ
  se_estimates : List (String × ℚ)
  context_weights : List (String × ℚ)

/-- `context_weights.get(dimension, 0.5)` of the source session dict. -/
def weightFor (contextWeights : List (String × ℚ)) (dimension : String) : ℚ :=
  match contextWeights.find? (fun p => p.1 == dimension) with
  | some p => p.2
  | none => 0.5

/-- `IntegratedGruenderAI.should_stop_assessment`: stop on the max-items
ceiling; else count important traits (weight >= 0.65) and those whose SE is
at or below `target_se * (0.8 if weight >= 0.8 else 0.9)`, and stop with
`precision_criteria_met` when at least 80% of the important traits are
ready; the trailing `current_item < 8` minimum-items check returns False on
both of its branches. -/
def shouldStopAssessment (session : StopSession) : Bool × Option String :=
  if session.max_items ≤ session.current_item then (true, some "max_items_reached")
  else
    let counts := session.se_estimates.foldl
      (fun (acc : ℕ × ℕ) p =>
        let weight := weightFor session.context_weights p.1
        if 0.65 ≤ weight then
          let requiredSe := session.target_se * (if 0.8 ≤ weight then 0.8 else 0.9)
          (acc.1 + 1, if p.2 ≤ requiredSe then acc.2 + 1 else acc.2)
        else acc)
      (0, 0)
    if 0 < counts.1 ∧ (0.8 : ℚ) ≤ (counts.2 : ℚ) / (counts.1 : ℚ) then
      (true, some "precision_criteria_met")
    else if session.current_item < 8 then (false, none)
    else (false, none)

/-- The fintech row of `trait_weights` in integrated_assessment_system.py. -/
def fintechWeights : List (String × ℚ) :=
  [("risk_taking", 0.85), ("innovativeness", 0.80), ("self_efficacy", 0.75),
   ("achievement_orientation", 0.70), ("proactiveness", 0.65),
   ("autonomy_orientation", 0.45), ("competitive_aggressiveness", 0.55)]

/-- A session one item into a fintech assessment whose standard errors are
all already 0.1, far below the 0.2 target. -/
def c1Session : StopSession :=
  { current_item := 1
    max_items := 15
    target_se := 0.2
    se_estimates :=
      [("risk_taking", 0.1), ("innovativeness", 0.1), ("self_efficacy", 0.1),
       ("achievement_orientation", 0.1), ("proactiveness", 0.1),
       ("autonomy_orientation", 0.1), ("competitive_aggressiveness", 0.1)]
    context_weights := fintechWeights }

/-- The demo item constructed in irt_cat_engine.py's self-test. -/
def demoItemCat : PersonalityItem :=
  { item_id := "INNOV_001"
    dimension := "innovativeness"
    text_de := "Ich entwickle gerne kreative Lösungen für Probleme"
    text_en := "I enjoy developing creative solutions to problems"
    discrimination := 1.2
    difficulty_thresholds := [-1.5, -0.5, 0.5, 1.5] }

theorem safeLogistic_nonneg (x : ℝ) : 0 ≤ safeLogistic x := by
  unfold safeLogistic
  split
  · norm_num
  split
  · norm_num
  · positivity

theorem safeLogistic_le_one (x : ℝ) : safeLogistic x ≤ 1 := by
  unfold safeLogistic
  split
  · norm_num
  split
  · norm_num
  · rw [div_le_one (by positivity)]
    have := Real.exp_pos (-x)
    linarith

theorem safeLogistic_eq_mid {x : ℝ} (h1 : -500 ≤ x) (h2 : x ≤ 500) :
    safeLogistic x = 1 / (1 + Real.exp (-x)) := by
  unfold safeLogistic
  rw [if_neg (by linarith), if_neg (by linarith)]

theorem safeLogistic_mono {x y : ℝ} (h : x ≤ y) : safeLogistic x ≤ safeLogistic y := by
  by_cases hy1 : 500 < y
  · have : safeLogistic y = 1 := by unfold safeLogistic; rw [if_pos hy1]
    rw [this]
    exact safeLogistic_le_one x
  by_cases hx2 : x < -500
  · have : safeLogistic x = 0 := by
      unfold safeLogistic
      rw [if_neg (by linarith), if_pos hx2]
    rw [this]
    exact safeLogistic_nonneg y
  · rw [safeLogistic_eq_mid (by linarith) (by linarith),
        safeLogistic_eq_mid (by linarith) (by linarith)]
    have he : Real.exp (-y) ≤ Real.exp (-x) := Real.exp_le_exp.mpr (by linarith)
    exact one_div_le_one_div_of_le (by positivity) (by linarith)

theorem safeLogistic_neg (x : ℝ) : safeLogistic (-x) = 1 - safeLogistic x := by
  by_cases h1 : 500 < x
  · have hA : safeLogistic x = 1 := by unfold safeLogistic; rw [if_pos h1]
    have hB : safeLogistic (-x) = 0 := by
      unfold safeLogistic
      rw [if_neg (by linarith), if_pos (by linarith)]
    rw [hA, hB]; norm_num
  by_cases h2 : x < -500
  · have hA : safeLogistic x = 0 := by
      unfold safeLogistic
      rw [if_neg (by linarith), if_pos h2]
    have hB : safeLogistic (-x) = 1 := by unfold safeLogistic; rw [if_pos (by linarith)]
    rw [hA, hB]; norm_num
  · rw [safeLogistic_eq_mid (by linarith) (by linarith),
        safeLogistic_eq_mid (x := x) (by linarith) (by linarith), neg_neg]
    rw [Real.exp_neg]
    have h5 : (0:ℝ) < Real.exp x := Real.exp_pos x
    have h6 : (0:ℝ) < 1 + Real.exp x := by positivity
    have h7 : (0:ℝ) < 1 + (Real.exp x)⁻¹ := by positivity
    field_simp
    ring

theorem safeLogistic_strict_mid {x y : ℝ} (hx1 : -500 ≤ x) (hy2 : y ≤ 500) (hxy : x < y) :
    safeLogistic x < safeLogistic y := by
  rw [safeLogistic_eq_mid hx1 (by linarith), safeLogistic_eq_mid (by linarith) hy2]
  have he : Real.exp (-y) < Real.exp (-x) := Real.exp_lt_exp.mpr (by linarith)
  exact one_div_lt_one_div_of_lt (by positivity) (by linarith)

theorem safeLogistic_half_le {x : ℝ} (h0 : 0 ≤ x) (h2 : x ≤ 500) : 1/2 ≤ safeLogistic x := by
  rw [safeLogistic_eq_mid (by linarith) h2]
  have he : Real.exp (-x) ≤ 1 := by
    rw [show (1:ℝ) = Real.exp 0 from (Real.exp_zero).symm]
    exact Real.exp_le_exp.mpr (by linarith)
  have hp : (0:ℝ) < 1 + Real.exp (-x) := by positivity
  rw [le_div_iff hp]
  linarith

/-- C10: for every current theta in [-3, 3], every item and every integer
response, `update_theta` returns a new theta inside [-3, 3] that moves by at
most 0.2 from the current theta. -/
theorem updateThetaCat_bounded_step (θ : ℝ) (item : PersonalityItem) (response : ℤ)
    (h1 : -3 ≤ θ) (h2 : θ ≤ 3) :
    -3 ≤ (updateThetaCat θ item response).1 ∧ (updateThetaCat θ item response).1 ≤ 3 ∧
    |(updateThetaCat θ item response).1 - θ| ≤ 0.2 := by
  have hδ : ∃ d : ℝ, |d| ≤ 0.2 ∧ (updateThetaCat θ item response).1 = max (-3) (min 3 (θ + d)) := by
    by_cases h4 : 4 ≤ response
    · exact ⟨0.2, by rw [abs_le]; constructor <;> norm_num, by simp [updateThetaCat, h4]⟩
    by_cases h5 : response ≤ 2
    · refine ⟨-0.2, by rw [abs_le]; constructor <;> norm_num, ?_⟩
      simp [updateThetaCat, h4, h5]
      ring_nf
    · have h3 : response = 3 := by omega
      subst h3
      refine ⟨0, by rw [abs_le]; constructor <;> norm_num, ?_⟩
      simp [updateThetaCat]
  obtain ⟨d, hd, heq⟩ := hδ
  rw [heq]
  have hd1 : -0.2 ≤ d := by have := abs_le.mp hd; exact this.1
  have hd2 : d ≤ 0.2 := by have := abs_le.mp hd; exact this.2
  have hub : max (-3) (min 3 (θ + d)) ≤ θ + 0.2 :=
    max_le (by linarith) (le_trans (min_le_right _ _) (by linarith))
  have hlb : θ - 0.2 ≤ max (-3) (min 3 (θ + d)) :=
    le_trans (le_min (by linarith) (by linarith)) (le_max_right _ _)
  refine ⟨le_max_left _ _, max_le (by norm_num) (min_le_left _ _), ?_⟩
  rw [abs_le]
  constructor <;> linarith

/-- Witness for C10 at theta 0, the irt_cat demo item and response 4. -/
theorem updateThetaCat_bounded_step_witness :
    -3 ≤ (updateThetaCat 0 demoItemCat 4).1 ∧ (updateThetaCat 0 demoItemCat 4).1 ≤ 3 ∧
    |(updateThetaCat 0 demoItemCat 4).1 - 0| ≤ 0.2 :=
  updateThetaCat_bounded_step 0 demoItemCat 4 (by norm_num) (by norm_num)

/-- C1: the stopping rule of `should_stop_assessment` fires with reason
`precision_criteria_met` on a session that has administered only 1 item
(below the minimum-items floor of 8) once every standard error is at or
below the target: the precision check runs before the minimum-items check,
so the floor does not dominate, contradicting the claim. -/
theorem shouldStop_stops_below_min_items :
    shouldStopAssessment c1Session = (true, some "precision_criteria_met") ∧
    c1Session.current_item < 8 ∧
    ∀ p ∈ c1Session.se_estimates, p.2 ≤ c1Session.target_se := by
  refine ⟨?_, by norm_num [c1Session], ?_⟩
  · simp [shouldStopAssessment, c1Session, fintechWeights, weightFor, List.foldl, List.find?]
    norm_num
  · intro p hp
    simp only [c1Session, List.mem_cons, List.not_mem_nil, or_false] at hp
    rcases hp with rfl | rfl | rfl | rfl | rfl | rfl | rfl <;> norm_num [c1Session]

/-- When every threshold's exponent argument saturates the (-500, 500)
guard, the irt_cat Fisher information sums no terms at all. -/
theorem fisherInformationCat_all_saturated (θ : ℝ) (item : PersonalityItem)
    (h : ∀ b ∈ item.difficulty_thresholds,
      ¬(-500 < item.discrimination * (θ - b) ∧ item.discrimination * (θ - b) < 500)) :
    fisherInformationCat θ item = 0 := by
  unfold fisherInformationCat
  have key : ∀ (l : List ℝ) (acc : ℝ),
      (∀ b ∈ l, ¬(-500 < item.discrimination * (θ - b) ∧ item.discrimination * (θ - b) < 500)) →
      List.foldl
        (fun totalInfo b =>
          let expVal := item.discrimination * (θ - b)
          if -500 < expVal ∧ expVal < 500 then
            totalInfo + (item.discrimination * item.discrimination) *
              (1 / (1 + Real.exp (-expVal))) * (1 - 1 / (1 + Real.exp (-expVal)))
          else totalInfo)
        acc l = acc := by
    intro l
    induction l with
    | nil => intro acc _; rfl
    | cons b t ih =>
      intro acc hb
      simp only [List.foldl_cons]
      rw [if_neg (hb b (List.mem_cons_self b t))]
      exact ih _ (fun x hx => hb x (List.mem_cons_of_mem b hx))
  exact key _ 0 h

/-- C5 counterexample: at theta = 1000 every exponent argument of the
irt_cat demo item saturates, so `fisher_information` returns exactly 0 even
for a valid item — there is no positive floor in irt_cat_engine.py. -/
theorem fisherInformationCat_zero_at_extreme_theta :
    fisherInformationCat 1000 demoItemCat = 0 ∧ 0 < demoItemCat.discrimination ∧
    demoItemCat.difficulty_thresholds.Chain' (· < ·) := by
  refine ⟨?_, by norm_num [demoItemCat], ?_⟩
  · apply fisherInformationCat_all_saturated
    simp only [demoItemCat]
    intro b hb
    simp only [List.mem_cons, List.not_mem_nil, or_false] at hb
    rcases hb with rfl | rfl | rfl | rfl <;> (rintro ⟨-, h2⟩; norm_num at h2)
  · simp only [demoItemCat]
    norm_num [List.chain'_cons]

/-- C5 amended: the pure_python `fisher_information` is floored at 0.001 for
every theta and item, and the irt_cat `fisher_information` is nonnegative
(but not floored away from zero). -/
theorem fisherInformation_floor_props :
    (∀ (θ a : ℝ) (bs : List ℝ), 0.001 ≤ fisherInformationPP θ a bs) ∧
    (∀ (θ : ℝ) (item : PersonalityItem), 0 ≤ fisherInformationCat θ item) := by
  constructor
  · intro θ a bs
    unfold fisherInformationPP
    exact le_max_right _ _
  · intro θ item
    unfold fisherInformationCat
    have key : ∀ (l : List ℝ) (acc : ℝ), 0 ≤ acc →
        0 ≤ List.foldl
          (fun totalInfo b =>
            let expVal := item.discrimination * (θ - b)
            if -500 < expVal ∧ expVal < 500 then
              totalInfo + (item.discrimination * item.discrimination) *
                (1 / (1 + Real.exp (-expVal))) * (1 - 1 / (1 + Real.exp (-expVal)))
            else totalInfo)
          acc l := by
      intro l
      induction l with
      | nil => intro acc h; exact h
      | cons b t ih =>
        intro acc h
        simp only [List.foldl_cons]
        apply ih
        dsimp only
        split
        · have hp : (0:ℝ) < 1 + Real.exp (-(item.discrimination * (θ - b))) := by positivity
          have hq1 : (0:ℝ) ≤ 1 / (1 + Real.exp (-(item.discrimination * (θ - b)))) := by positivity
          have hq2 : 1 / (1 + Real.exp (-(item.discrimination * (θ - b)))) ≤ 1 := by
            rw [div_le_one hp]
            have := Real.exp_pos (-(item.discrimination * (θ - b)))
            linarith
          have hterm := mul_nonneg (mul_nonneg (mul_self_nonneg item.discrimination) hq1)
            (by linarith : (0:ℝ) ≤ 1 - 1 / (1 + Real.exp (-(item.discrimination * (θ - b)))))
          linarith
        · exact h
    exact key _ 0 le_rfl

/-- C6 counterexample: the pure_python `grm_probability` applies no floor to
the boundary categories; for the valid item with discrimination 1 and
thresholds [0, 1, 2, 3], category 5 at theta = -600 saturates the logistic
guard and the function returns exactly 0. -/
theorem grmProbabilityPP_returns_zero_at_saturation :
    grmProbabilityPP (-600) 1 [0, 1, 2, 3] 5 = 0 ∧
    (0:ℝ) < 1 ∧ List.Chain' (· < ·) [(0:ℝ), 1, 2, 3] := by
  refine ⟨?_, by norm_num, by norm_num [List.chain'_cons]⟩
  have hget : pyGet [(0:ℝ), 1, 2, 3] (-1) = some 3 := by
    simp [pyGet]
  simp only [grmProbabilityPP, hget]
  norm_num [safeLogistic]

/-- C6 amended: the irt_cat `grm_probability` is floored at 0.001 for every
category (valid or not); the pure_python version is floored at 0.001 for the
middle categories 2..4 and is merely nonnegative in general (boundary
categories 1 and 5 are returned unfloored). -/
theorem grmProbability_floor_props :
    (∀ (θ : ℝ) (item : PersonalityItem) (r : ℤ), 0.001 ≤ grmProbabilityCat θ item r) ∧
    (∀ (θ a : ℝ) (bs : List ℝ) (c : ℤ), 2 ≤ c → c ≤ 4 → 0.001 ≤ grmProbabilityPP θ a bs c) ∧
    (∀ (θ a : ℝ) (bs : List ℝ) (c : ℤ), 0 ≤ grmProbabilityPP θ a bs c) := by
  refine ⟨?_, ?_, ?_⟩
  · intro θ item r
    unfold grmProbabilityCat
    dsimp only
    split
    · exact le_rfl
    · exact le_max_right _ _
  · intro θ a bs c h2 h4
    have hc1 : ¬(c = 1) := by omega
    have hc5 : ¬(c = 5) := by omega
    unfold grmProbabilityPP
    rw [if_neg hc1, if_neg hc5]
    cases hA : pyGet bs (c - 2) with
    | none => simp only [hA]; exact le_rfl
    | some b1 =>
      cases hB : pyGet bs (c - 1) with
      | none => simp only [hA, hB]; exact le_rfl
      | some b2 => simp only [hA, hB]; exact le_max_left _ _
  · intro θ a bs c
    unfold grmProbabilityPP
    split
    · cases hA : pyGet bs 0 with
      | none => simp only [hA]; norm_num
      | some b => simp only [hA]; exact safeLogistic_nonneg _
    split
    · cases hA : pyGet bs (-1) with
      | none => simp only [hA]; norm_num
      | some b => simp only [hA]; exact safeLogistic_nonneg _
    · cases hA : pyGet bs (c - 2) with
      | none => simp only [hA]; norm_num
      | some b1 =>
        cases hB : pyGet bs (c - 1) with
        | none => simp only [hA, hB]; norm_num
        | some b2 =>
          simp only [hA, hB]
          exact le_trans (by norm_num) (le_max_left 0.001 _)

/-- Witness for the hypotheses of the C6 amended floor theorem, at theta 0,
the demo item and the middle category 3. -/
theorem grmProbability_floor_props_witness :
    0.001 ≤ grmProbabilityCat 0 demoItemCat 3 ∧
    (2:ℤ) ≤ 3 ∧ (3:ℤ) ≤ 4 ∧ 0.001 ≤ grmProbabilityPP 0 1.2 [-1.5, -0.5, 0.5, 1.5] 3 :=
  ⟨grmProbability_floor_props.1 0 demoItemCat 3, by norm_num, by norm_num,
   grmProbability_floor_props.2.1 0 1.2 [-1.5, -0.5, 0.5, 1.5] 3 (by norm_num) (by norm_num)⟩

/-- C7 counterexample: out-of-range categories are not rejected. The irt_cat
`grm_probability` returns the fallback probability 0.001 for categories 0
and 6, and the pure_python version computes a positive probability for
category 0 by reusing the last two thresholds through Python negative
indexing — no error is signalled in either implementation. -/
theorem grmProbability_invalid_category_silent :
    grmProbabilityCat 0 demoItemCat 0 = 0.001 ∧ grmProbabilityCat 0 demoItemCat 6 = 0.001 ∧
    0 < grmProbabilityPP 0 1.2 [-1.5, -0.5, 0.5, 1.5] 0 := by
  refine ⟨?_, ?_, ?_⟩
  · norm_num [grmProbabilityCat, demoItemCat]
  · norm_num [grmProbabilityCat, demoItemCat]
  · have h1 : pyGet [(-1.5:ℝ), -0.5, 0.5, 1.5] (-2) = some 0.5 := by simp [pyGet]
    have h2 : pyGet [(-1.5:ℝ), -0.5, 0.5, 1.5] (-1) = some 1.5 := by simp [pyGet]
    have h3 : ((0:ℤ) - 2) = -2 := by norm_num
    have h4 : ((0:ℤ) - 1) = -1 := by norm_num
    simp only [grmProbabilityPP, h3, h4, h1, h2]
    norm_num

/-- C7 amended: invalid categories are silently mapped, not rejected: for a
standard 4-threshold item the irt_cat `grm_probability` returns the 0.001
fallback for every category outside [1,5], and the pure_python version
returns a value of at least 0.001 for category 0. -/
theorem grmProbability_invalid_category_fallback :
    (∀ (θ : ℝ) (item : PersonalityItem) (r : ℤ), item.difficulty_thresholds.length = 4 →
      (r < 1 ∨ 5 < r) → grmProbabilityCat θ item r = 0.001) ∧
    (∀ (θ a : ℝ) (bs : List ℝ), 0.001 ≤ grmProbabilityPP θ a bs 0) := by
  constructor
  · intro θ item r hlen hr
    unfold grmProbabilityCat
    dsimp only
    split
    · rfl
    · rename_i hcond
      exfalso
      rw [not_or] at hcond
      obtain ⟨hc1, hc2⟩ := hcond
      simp only [List.length_cons, List.length_append, List.length_map, hlen,
        List.length_singleton, List.length_nil] at hc2
      omega
  · intro θ a bs
    unfold grmProbabilityPP
    rw [if_neg (by decide), if_neg (by decide)]
    cases hA : pyGet bs ((0:ℤ) - 2) with
    | none => simp only [hA]; exact le_rfl
    | some b1 =>
      cases hB : pyGet bs ((0:ℤ) - 1) with
      | none => simp only [hA, hB]; exact le_rfl
      | some b2 => simp only [hA, hB]; exact le_max_left _ _

/-- Witness for the hypotheses of the C7 amended theorem, at the demo item
with the out-of-range category 7 and at category 0 on an empty list. -/
theorem grmProbability_invalid_category_fallback_witness :
    demoItemCat.difficulty_thresholds.length = 4 ∧ ((7:ℤ) < 1 ∨ 5 < (7:ℤ)) ∧
    grmProbabilityCat 0 demoItemCat 7 = 0.001 ∧ 0.001 ≤ grmProbabilityPP 0 1 [] 0 :=
  ⟨by simp [demoItemCat], by norm_num,
   grmProbability_invalid_category_fallback.1 0 demoItemCat 7 (by simp [demoItemCat])
     (by norm_num),
   grmProbability_invalid_category_fallback.2 0 1 []⟩

/-- The first item of `create_sample_item_bank` in sample_items.py. -/
def innovItemCat : PersonalityItem :=
  { item_id := "INNOV_001", dimension := "innovativeness",
    text_de := "Ich entwickle gerne völlig neue Lösungsansätze, auch wenn bewährte Methoden existieren",
    text_en := "I enjoy developing completely new approaches, even when proven methods exist",
    discrimination := 1.4, difficulty_thresholds := [-1.2, -0.3, 0.4, 1.3] }

/-- `create_sample_item_bank` from sample_items.py: the ten shipped items,
constructed directly from the `PersonalityItem` dataclass with no
validation step. -/
def createSampleItemBank : List PersonalityItem :=
  [innovItemCat,
   { item_id := "INNOV_002", dimension := "innovativeness",
     text_de := "Ich experimentiere gerne mit unkonventionellen Geschäftsideen",
     text_en := "I enjoy experimenting with unconventional business ideas",
     discrimination := 1.6, difficulty_thresholds := [-0.8, 0.0, 0.8, 1.6] },
   { item_id := "RISK_001", dimension := "risk_taking",
     text_de := "Ich bin bereit, finanzielle Risiken einzugehen, wenn die Chancen vielversprechend sind",
     text_en := "I am willing to take financial risks when opportunities are promising",
     discrimination := 1.3, difficulty_thresholds := [-1.0, -0.2, 0.6, 1.4] },
   { item_id := "RISK_002", dimension := "risk_taking",
     text_de := "Ich würde auch bei unsicheren Marktbedingungen ein Unternehmen gründen",
     text_en := "I would start a business even under uncertain market conditions",
     discrimination := 1.5, difficulty_thresholds := [-0.5, 0.3, 1.0, 1.8] },
   { item_id := "ACHV_001", dimension := "achievement_orientation",
     text_de := "Ich setze mir bewusst hohe Ziele und arbeite intensiv daran, diese zu erreichen",
     text_en := "I deliberately set high goals and work intensively to achieve them",
     discrimination := 1.2, difficulty_thresholds := [-1.5, -0.5, 0.3, 1.2] },
   { item_id := "ACHV_002", dimension := "achievement_orientation",
     text_de := "Erfolg zu haben ist mir wichtiger als ein entspanntes Leben zu führen",
     text_en := "Being successful is more important to me than leading a relaxed life",
     discrimination := 1.4, difficulty_thresholds := [-0.8, 0.0, 0.8, 1.5] },
   { item_id := "AUTO_001", dimension := "autonomy_orientation",
     text_de := "Ich möchte meine eigenen Entscheidungen treffen, ohne Rücksprache mit Vorgesetzten",
     text_en := "I want to make my own decisions without consulting superiors",
     discrimination := 1.3, difficulty_thresholds := [-1.3, -0.4, 0.4, 1.1] },
   { item_id := "PROACT_001", dimension := "proactiveness",
     text_de := "Ich erkenne Markttrends früh und handle entsprechend, bevor andere reagieren",
     text_en := "I recognize market trends early and act accordingly before others react",
     discrimination := 1.5, difficulty_thresholds := [-0.9, -0.1, 0.7, 1.4] },
   { item_id := "LOC_001", dimension := "locus_of_control",
     text_de := "Mein Erfolg hängt hauptsächlich von meinen eigenen Anstrengungen ab",
     text_en := "My success depends mainly on my own efforts",
     discrimination := 1.1, difficulty_thresholds := [-1.8, -0.8, 0.2, 1.0] },
   { item_id := "SELF_001", dimension := "self_efficacy",
     text_de := "Ich traue mir zu, auch schwierige Geschäftsprobleme erfolgreich zu lösen",
     text_en := "I believe I can successfully solve even difficult business problems",
     discrimination := 1.2, difficulty_thresholds := [-1.4, -0.6, 0.3, 1.3] }]

/-- The item invariant stated by the specification: strictly positive
discrimination and strictly increasing difficulty thresholds. -/
def specValidItem (item : PersonalityItem) : Prop :=
  0 < item.discrimination ∧ item.difficulty_thresholds.Chain' (· < ·)

/-- An ill-formed item: negative discrimination and decreasing thresholds. -/
def c8BadItem : PersonalityItem :=
  { item_id := "BAD_001", dimension := "innovativeness", text_de := "", text_en := "",
    discrimination := -1, difficulty_thresholds := [1, 0] }

/-- C8 counterexample: constructing a `PersonalityItem` with negative
discrimination and decreasing thresholds succeeds with the ill-formed
parameters stored untouched, and the item flows straight into the
probability computation, which returns the well-defined value 1/2 for
category 3 at theta 0 — nothing rejects it at load time or at estimation
time. -/
theorem personalityItem_illformed_constructed :
    ¬ specValidItem c8BadItem ∧ c8BadItem.discrimination = -1 ∧
    c8BadItem.difficulty_thresholds = [1, 0] ∧
    grmProbabilityCat 0 c8BadItem 3 = 1/2 := by
  refine ⟨?_, by norm_num [c8BadItem], by norm_num [c8BadItem], ?_⟩
  · rintro ⟨h1, -⟩
    norm_num [c8BadItem] at h1
  · unfold grmProbabilityCat
    simp only [c8BadItem, List.map_cons, List.map_nil, List.cons_append, List.nil_append,
      List.length_cons, List.length_nil]
    rw [if_neg (by norm_num)]
    have hidx : ((3:ℤ) - 1).toNat = 2 := by decide
    rw [hidx]
    simp only [List.getD, List.get?]
    have hmid : safeLogistic (-1 * ((0:ℝ) - 0)) = 1/2 := by
      rw [show (-1 * ((0:ℝ) - 0)) = 0 by norm_num]
      rw [safeLogistic_eq_mid (by norm_num) (by norm_num)]
      rw [show (-(0:ℝ)) = 0 by norm_num, Real.exp_zero]
      norm_num
    rw [hmid]
    rw [max_eq_left (by norm_num)]
    norm_num

/-- C8 amended: no load-time validation exists (the counterexample shows an
ill-formed item is accepted), but every item in the shipped sample item bank
does satisfy the spec invariant of positive discrimination and strictly
increasing thresholds. -/
theorem sampleItemBank_all_valid :
    ∀ item ∈ createSampleItemBank, specValidItem item := by
  intro item hitem
  simp only [createSampleItemBank, List.mem_cons, List.not_mem_nil, or_false] at hitem
  rcases hitem with rfl | rfl | rfl | rfl | rfl | rfl | rfl | rfl | rfl | rfl <;>
    exact ⟨by norm_num [innovItemCat], by norm_num [innovItemCat, List.chain'_cons]⟩

/-- Witness for the C8 amended theorem at the first sample item. -/
theorem sampleItemBank_all_valid_witness :
    (innovItemCat ∈ createSampleItemBank) ∧ specValidItem innovItemCat :=
  ⟨by simp [createSampleItemBank],
   sampleItemBank_all_valid innovItemCat (by simp [createSampleItemBank])⟩

/-- The best-item scan either keeps the initial best item or returns an
element of the candidate list. -/
theorem selectScan_mem (θ : ℝ) :
    ∀ (l : List ItemPP) (acc : Option ItemPP × ℝ),
      (selectScan θ l acc).1 = acc.1 ∨ ∃ x ∈ l, (selectScan θ l acc).1 = some x := by
  intro l
  induction l with
  | nil => intro acc; left; rfl
  | cons a t ih =>
    intro acc
    unfold selectScan
    simp only [List.foldl_cons]
    by_cases h : acc.2 < fisherInformationPP θ a.discrimination a.difficulty_thresholds
    · rw [if_pos h]
      rcases ih (some a, fisherInformationPP θ a.discrimination a.difficulty_thresholds) with
        h1 | ⟨x, hx, h2⟩
      · right
        exact ⟨a, List.mem_cons_self a t, h1⟩
      · right
        exact ⟨x, List.mem_cons_of_mem a hx, h2⟩
    · rw [if_neg h]
      rcases ih acc with h1 | ⟨x, hx, h2⟩
      · left; exact h1
      · right; exact ⟨x, List.mem_cons_of_mem a hx, h2⟩

/-- A selected item always comes from the candidate pool: its id is not in
the used set and it belongs to the available list. -/
theorem selectNextItemPP_some_not_used {θ : ℝ} {avail : List ItemPP} {used : List String}
    {it : ItemPP} (h : selectNextItemPP θ avail used = some it) :
    it.item_id ∉ used ∧ it ∈ avail := by
  unfold selectNextItemPP at h
  split at h
  · exact absurd h (by simp)
  · dsimp only at h
    split at h
    · exact absurd h (by simp)
    · rcases selectScan_mem θ (avail.filter (fun x => !used.contains x.item_id))
        ((none : Option ItemPP), -1) with h1 | ⟨x, hx, h2⟩
      · rw [h1] at h
        exact absurd h (by simp)
      · rw [h2] at h
        have hxit : x = it := by injection h
        subst hxit
        have hmem := List.mem_filter.mp hx
        refine ⟨?_, hmem.1⟩
        have hb : (!used.contains x.item_id) = true := hmem.2
        simp only [Bool.not_eq_true'] at hb
        intro hcon
        rw [List.contains_eq_any_beq] at hb
        simp [List.any_eq_true] at hb
        exact (hb x.item_id hcon) rfl

/-- With an empty candidate pool the selector returns `None`. -/
theorem selectNextItemPP_empty_pool (θ : ℝ) (avail : List ItemPP) (used : List String)
    (h : avail.filter (fun it => !used.contains it.item_id) = []) :
    selectNextItemPP θ avail used = none := by
  unfold selectNextItemPP
  split
  · rfl
  · dsimp only
    rw [if_pos (by rw [h]; rfl)]

/-- Over any number of successive selections, recording each selected id
before the next call, the selected ids never revisit the used set and are
pairwise distinct. -/
theorem runSelection_spec (θ : ℝ) (avail : List ItemPP) :
    ∀ (n : ℕ) (used : List String),
      (∀ id ∈ runSelection θ avail n used, id ∉ used) ∧
      (runSelection θ avail n used).Nodup := by
  intro n
  induction n with
  | zero => intro used; exact ⟨by simp [runSelection], by simp [runSelection]⟩
  | succ m ih =>
    intro used
    cases hsel : selectNextItemPP θ avail used with
    | none =>
      constructor
      · intro id hid
        simp only [runSelection, hsel] at hid
        exact absurd hid (by simp)
      · simp only [runSelection, hsel]
        exact List.nodup_nil
    | some it =>
      have hnotused := (selectNextItemPP_some_not_used hsel).1
      obtain ⟨ih1, ih2⟩ := ih (it.item_id :: used)
      constructor
      · intro id hid
        simp only [runSelection, hsel] at hid
        rcases List.mem_cons.mp hid with rfl | hid'
        · exact hnotused
        · intro hcon
          exact (ih1 id hid') (List.mem_cons_of_mem _ hcon)
      · simp only [runSelection, hsel]
        refine List.nodup_cons.mpr ⟨?_, ih2⟩
        intro hcon
        exact (ih1 _ hcon) (List.mem_cons_self _ _)

/-- C9: over any sequence of successive calls to the selector in which each
selected item id is added to the administered set before the next call, no
item id is ever returned twice (the returned ids are pairwise distinct and
disjoint from the initial used set); a selected item never comes from the
used set, and an empty candidate pool yields `None` rather than a repeat. -/
theorem selectNextItem_no_repeat (θ : ℝ) (avail : List ItemPP) (used : List String) (n : ℕ) :
    (runSelection θ avail n used).Nodup ∧
    (∀ id ∈ runSelection θ avail n used, id ∉ used) ∧
    (∀ it : ItemPP, selectNextItemPP θ avail used = some it → it.item_id ∉ used) ∧
    (avail.filter (fun it => !used.contains it.item_id) = [] →
      selectNextItemPP θ avail used = none) :=
  ⟨(runSelection_spec θ avail n used).2, (runSelection_spec θ avail n used).1,
   fun _ h => (selectNextItemPP_some_not_used h).1,
   selectNextItemPP_empty_pool θ avail used⟩

/-- Witness for C9 at theta 0, an empty pool, an empty used set and two
selection rounds. -/
theorem selectNextItem_no_repeat_witness :
    (runSelection 0 [] 2 []).Nodup ∧
    (∀ id ∈ runSelection 0 [] 2 [], id ∉ ([] : List String)) ∧
    (∀ it : ItemPP, selectNextItemPP 0 [] [] = some it → it.item_id ∉ ([] : List String)) ∧
    (([] : List ItemPP).filter (fun it => !([] : List String).contains it.item_id) = [] →
      selectNextItemPP 0 [] [] = none) :=
  selectNextItem_no_repeat 0 [] [] 2

/-- One step of the best-theta scan. -/
theorem bestSearch_cons (f : ℝ → ℝ) (a : ℝ) (t : List ℝ) (b : ℝ × ℝ) :
    bestSearch f (a :: t) b = bestSearch f t (if b.2 < f a then (a, f a) else b) := rfl

/-- If no grid value strictly beats the running best, the scan keeps it. -/
theorem bestSearch_stay (f : ℝ → ℝ) :
    ∀ (l : List ℝ) (b : ℝ × ℝ), (∀ t ∈ l, f t ≤ b.2) → bestSearch f l b = b := by
  intro l
  induction l with
  | nil => intro b _; rfl
  | cons a t ih =>
    intro b h
    rw [bestSearch_cons, if_neg (not_lt.mpr (h a (List.mem_cons_self a t)))]
    exact ih b (fun u hu => h u (List.mem_cons_of_mem a hu))

/-- Full characterisation of the best-theta scan: either nothing beat the
initial pair and it is returned unchanged, or the result is the first list
element attaining the maximal value that strictly beats the initial one. -/
theorem bestSearch_spec (f : ℝ → ℝ) :
    ∀ (l : List ℝ) (b : ℝ × ℝ),
      (bestSearch f l b = b ∧ ∀ t ∈ l, f t ≤ b.2) ∨
      ((bestSearch f l b).1 ∈ l ∧ (bestSearch f l b).2 = f (bestSearch f l b).1 ∧
       b.2 < (bestSearch f l b).2 ∧ (∀ t ∈ l, f t ≤ (bestSearch f l b).2) ∧
       ∃ l1 l2, l = l1 ++ (bestSearch f l b).1 :: l2 ∧
         ∀ t ∈ l1, f t < (bestSearch f l b).2) := by
  intro l
  induction l with
  | nil => intro b; left; exact ⟨rfl, by simp⟩
  | cons a t ih =>
    intro b
    rw [bestSearch_cons]
    by_cases h : b.2 < f a
    · rw [if_pos h]
      rcases ih (a, f a) with ⟨he, hle⟩ | ⟨hmem, hval, hgt, hub, l1, l2, hsplit, hstrict⟩
      · right
        rw [he]
        refine ⟨List.mem_cons_self a t, rfl, h, ?_, [], t, by simp, by simp⟩
        intro u hu
        rcases List.mem_cons.mp hu with rfl | hu'
        · exact le_refl (f u)
        · exact hle u hu'
      · right
        refine ⟨List.mem_cons_of_mem a hmem, hval, lt_trans h hgt, ?_, a :: l1, l2, ?_, ?_⟩
        · intro u hu
          rcases List.mem_cons.mp hu with rfl | hu'
          · exact le_of_lt hgt
          · exact hub u hu'
        · rw [List.cons_append, ← hsplit]
        · intro u hu
          rcases List.mem_cons.mp hu with rfl | hu'
          · exact hgt
          · exact hstrict u hu'
    · rw [if_neg h]
      push_neg at h
      rcases ih b with ⟨he, hle⟩ | ⟨hmem, hval, hgt, hub, l1, l2, hsplit, hstrict⟩
      · left
        refine ⟨he, ?_⟩
        intro u hu
        rcases List.mem_cons.mp hu with rfl | hu'
        · exact h
        · exact hle u hu'
      · right
        refine ⟨List.mem_cons_of_mem a hmem, hval, hgt, ?_, a :: l1, l2, ?_, ?_⟩
        · intro u hu
          rcases List.mem_cons.mp hu with rfl | hu'
          · exact le_trans h (le_of_lt hgt)
          · exact hub u hu'
        · rw [List.cons_append, ← hsplit]
        · intro u hu
          rcases List.mem_cons.mp hu with rfl | hu'
          · exact lt_of_le_of_lt h hgt
          · exact hstrict u hu'

theorem gridThetas_mem_neg_three : (-3 : ℝ) ∈ gridThetas := by
  unfold gridThetas
  refine List.mem_map.mpr ⟨0, by simp, by norm_num⟩

theorem gridThetas_mem_three : (3 : ℝ) ∈ gridThetas := by
  unfold gridThetas
  refine List.mem_map.mpr ⟨60, by simp, by norm_num⟩

theorem gridThetas_le_three : ∀ t ∈ gridThetas, t ≤ 3 := by
  intro t ht
  unfold gridThetas at ht
  obtain ⟨i, hi, rfl⟩ := List.mem_map.mp ht
  rw [List.mem_range] at hi
  have hc : (i : ℝ) ≤ 60 := by exact_mod_cast Nat.le_of_lt_succ hi
  nlinarith

theorem gridThetas_ge_neg_three : ∀ t ∈ gridThetas, -3 ≤ t := by
  intro t ht
  unfold gridThetas at ht
  obtain ⟨i, hi, rfl⟩ := List.mem_map.mp ht
  have hc : (0 : ℝ) ≤ (i : ℝ) := Nat.cast_nonneg i
  nlinarith

theorem gridThetas_pairwise_le : gridThetas.Pairwise (· ≤ ·) := by
  unfold gridThetas
  refine List.Pairwise.map _ ?_ (List.pairwise_lt_range 61)
  intro a b hab
  have hc : (a : ℝ) < (b : ℝ) := by exact_mod_cast hab
  nlinarith

/-- C4 amended: whenever some grid point's accumulated log-likelihood
exceeds the -999999 sentinel (true in particular for any response list of
fewer than about 144000 responses), the theta returned by `estimate_theta`
is a grid point of the fixed discretization, it maximizes the accumulated
log-likelihood over the grid, and on exact ties it is the first such point
in ascending theta order. -/
theorem estimateThetaPP_first_grid_argmax (responses : List ℤ) (items : List ItemPP)
    (h1 : responses ≠ []) (h2 : items ≠ [])
    (h3 : ∃ t ∈ gridThetas, -999999 < logLikPP responses items t) :
    (estimateThetaPP responses items).1 ∈ gridThetas ∧
    (∀ t ∈ gridThetas, logLikPP responses items t ≤
        logLikPP responses items (estimateThetaPP responses items).1) ∧
    (∀ t ∈ gridThetas, logLikPP responses items t =
        logLikPP responses items (estimateThetaPP responses items).1 →
      (estimateThetaPP responses items).1 ≤ t) := by
  have hne : (responses.isEmpty || items.isEmpty) = false := by
    cases responses with
    | nil => exact absurd rfl h1
    | cons a t =>
      cases items with
      | nil => exact absurd rfl h2
      | cons b u => rfl
  have hfst : (estimateThetaPP responses items).1 =
      (bestSearch (logLikPP responses items) gridThetas (0, -999999)).1 := by
    unfold estimateThetaPP
    simp only [hne, Bool.false_eq_true, if_false]
  obtain ⟨t0, ht0, hgt0⟩ := h3
  rcases bestSearch_spec (logLikPP responses items) gridThetas (0, -999999) with
    ⟨he, hle⟩ | ⟨hmem, hval, hgt, hub, l1, l2, hsplit, hstrict⟩
  · exact absurd (hle t0 ht0) (not_le.mpr hgt0)
  · rw [hfst]
    refine ⟨hmem, ?_, ?_⟩
    · intro t ht
      have hu := hub t ht
      rwa [hval] at hu
    · intro t ht heq
      have hpw := gridThetas_pairwise_le
      rw [hsplit] at hpw ht
      rcases List.mem_append.mp ht with hA | hB
      · exfalso
        have hs := hstrict t hA
        rw [hval] at hs
        exact absurd heq (ne_of_lt hs)
      · rcases List.mem_cons.mp hB with heqt | hC
        · exact le_of_eq heqt.symm
        · have hp2 := (List.pairwise_append.mp hpw).2.1
          exact (List.pairwise_cons.mp hp2).1 t hC

/-- The dict for the first sample item as consumed by pure_python_irt.py. -/
def innovItemPP : ItemPP :=
  { item_id := "INNOV_001", dimension := "innovativeness",
    discrimination := 1.4, difficulty_thresholds := [-1.2, -0.3, 0.4, 1.3] }

/-- Category 6 on a 4-threshold item indexes `thresholds[4]`, the IndexError
is caught and the 0.001 fallback is returned, at every theta. -/
theorem grmProbabilityPP_cat6_innov (θ : ℝ) :
    grmProbabilityPP θ innovItemPP.discrimination innovItemPP.difficulty_thresholds 6 = 0.001 := by
  unfold grmProbabilityPP
  rw [if_neg (by decide), if_neg (by decide)]
  have hA : pyGet innovItemPP.difficulty_thresholds ((6:ℤ) - 2) = none := by
    simp [pyGet, innovItemPP]
  rw [hA]

/-- A run of n invalid category-6 responses contributes exactly
`n * log(0.001)` to the accumulated log-likelihood, at every theta. -/
theorem logLikPP_replicate6 (n : ℕ) (θ : ℝ) :
    logLikPP (List.replicate n 6) (List.replicate n innovItemPP) θ = n * Real.log 0.001 := by
  unfold logLikPP
  have hz : (List.replicate n (6:ℤ)).zip (List.replicate n innovItemPP) =
      List.replicate n ((6:ℤ), innovItemPP) := by
    induction n with
    | zero => rfl
    | succ m ih => simp [List.replicate_succ, List.zip_cons_cons, ih]
  rw [hz]
  have key : ∀ (m : ℕ) (acc : ℝ),
      List.foldl
        (fun acc p =>
          let prob := grmProbabilityPP θ p.2.discrimination p.2.difficulty_thresholds p.1
          if 0.001 < prob then acc + Real.log prob else acc + Real.log 0.001)
        acc (List.replicate m ((6:ℤ), innovItemPP)) = acc + m * Real.log 0.001 := by
    intro m
    induction m with
    | zero => intro acc; simp
    | succ k ih =>
      intro acc
      rw [List.replicate_succ, List.foldl_cons]
      simp only [grmProbabilityPP_cat6_innov θ]
      rw [if_neg (by norm_num), ih]
      push_cast
      ring
  rw [key n 0]
  ring

/-- A rational lower bound for log 1000, via exp 20 < 2.7182818286^20 < 10^9. -/
theorem log_thousand_lower : (20:ℝ)/3 ≤ Real.log 1000 := by
  rw [Real.le_log_iff_exp_le (by norm_num : (0:ℝ) < 1000)]
  have h3 : Real.exp (20/3) ^ (3:ℕ) = Real.exp 20 := by
    rw [← Real.exp_nat_mul]
    norm_num
  have h20 : Real.exp 20 ≤ (10:ℝ) ^ (9:ℕ) := by
    have h1 : Real.exp 20 = Real.exp 1 ^ (20:ℕ) := by
      rw [← Real.exp_nat_mul]
      norm_num
    rw [h1]
    calc Real.exp 1 ^ (20:ℕ)
        ≤ (2.7182818286:ℝ) ^ (20:ℕ) :=
          pow_le_pow_left (Real.exp_pos 1).le (le_of_lt Real.exp_one_lt_d9) 20
      _ ≤ (10:ℝ) ^ (9:ℕ) := by norm_num
  have hle : Real.exp (20/3) ^ (3:ℕ) ≤ (1000:ℝ) ^ (3:ℕ) := by
    rw [h3]
    calc Real.exp 20 ≤ (10:ℝ) ^ (9:ℕ) := h20
      _ = (1000:ℝ) ^ (3:ℕ) := by norm_num
  exact le_of_pow_le_pow_left (by norm_num) (by norm_num) hle

/-- A nonempty replicate list is not empty, without unfolding it. -/
theorem replicate_isEmpty_false {α : Type} (n : ℕ) (h : n ≠ 0) (a : α) :
    (List.replicate n a).isEmpty = false := by
  cases n with
  | zero => exact absurd rfl h
  | succ m =>
    rw [List.replicate_succ]
    rfl

/-- C4 counterexample: with 150000 category-6 responses, every grid point's
log-likelihood is 150000*log(0.001), which lies below the -999999 sentinel,
so the scan never updates and `estimate_theta` returns the initial 0.0 —
even though theta = -3.0 (a smaller grid point) attains exactly the same
maximal log-likelihood, contradicting the first-in-ascending-order
tie-break (and grid-argmax) claim. -/
theorem estimateThetaPP_sentinel_breaks_tiebreak :
    (estimateThetaPP (List.replicate 150000 6) (List.replicate 150000 innovItemPP)).1 = 0 ∧
    logLikPP (List.replicate 150000 6) (List.replicate 150000 innovItemPP) (-3) =
      logLikPP (List.replicate 150000 6) (List.replicate 150000 innovItemPP) 0 ∧
    (-3 : ℝ) ∈ gridThetas ∧ (-3 : ℝ) < 0 := by
  refine ⟨?_, by rw [logLikPP_replicate6, logLikPP_replicate6], gridThetas_mem_neg_three,
    by norm_num⟩
  have hbound : ∀ t ∈ gridThetas,
      logLikPP (List.replicate 150000 6) (List.replicate 150000 innovItemPP) t ≤
        (0, (-999999:ℝ)).2 := by
    intro t _
    rw [logLikPP_replicate6]
    have hlog := log_thousand_lower
    have h0 : Real.log 0.001 = -Real.log 1000 := by
      rw [show (0.001:ℝ) = 1000⁻¹ by norm_num, Real.log_inv]
    rw [h0]
    show (150000:ℕ) * -Real.log 1000 ≤ -999999
    push_cast
    nlinarith
  have hstay := bestSearch_stay
    (logLikPP (List.replicate 150000 6) (List.replicate 150000 innovItemPP))
    gridThetas (0, -999999) hbound
  have hor : ((List.replicate 150000 (6:ℤ)).isEmpty ||
      (List.replicate 150000 innovItemPP).isEmpty) = false := by
    rw [replicate_isEmpty_false 150000 (by norm_num) (6:ℤ),
        replicate_isEmpty_false 150000 (by norm_num) innovItemPP]
    rfl
  unfold estimateThetaPP
  simp only [hor, Bool.false_eq_true, if_false, hstay]

/-- Witness for the hypotheses of the C4 amended theorem: one (invalid)
category-6 response, whose constant log-likelihood log(0.001) clears the
-999999 sentinel at theta = -3. -/
theorem estimateThetaPP_first_grid_argmax_witness :
    (([(6:ℤ)] ≠ []) ∧ ([innovItemPP] ≠ []) ∧
      ∃ t ∈ gridThetas, -999999 < logLikPP [6] [innovItemPP] t) ∧
    ((estimateThetaPP [6] [innovItemPP]).1 ∈ gridThetas ∧
     (∀ t ∈ gridThetas, logLikPP [6] [innovItemPP] t ≤
         logLikPP [6] [innovItemPP] (estimateThetaPP [6] [innovItemPP]).1) ∧
     (∀ t ∈ gridThetas, logLikPP [6] [innovItemPP] t =
         logLikPP [6] [innovItemPP] (estimateThetaPP [6] [innovItemPP]).1 →
       (estimateThetaPP [6] [innovItemPP]).1 ≤ t)) := by
  have hlog : -999999 < logLikPP [6] [innovItemPP] (-3) := by
    have h := logLikPP_replicate6 1 (-3)
    rw [List.replicate_one, List.replicate_one] at h
    rw [h]
    have h1000 : Real.log 1000 ≤ 999 := by
      have hx := Real.log_le_sub_one_of_pos (by norm_num : (0:ℝ) < 1000)
      linarith
    have h0 : Real.log 0.001 = -Real.log 1000 := by
      rw [show (0.001:ℝ) = 1000⁻¹ by norm_num, Real.log_inv]
    rw [h0]
    push_cast
    linarith
  have hex : ∃ t ∈ gridThetas, -999999 < logLikPP [6] [innovItemPP] t :=
    ⟨-3, gridThetas_mem_neg_three, hlog⟩
  exact ⟨⟨by simp, by simp, hex⟩,
    estimateThetaPP_first_grid_argmax [6] [innovItemPP] (by simp) (by simp) hex⟩

/-- Category 5 on the INNOV_001 item is the unfloored logistic at the last
threshold. -/
theorem grmProbabilityPP_cat5_innov (θ : ℝ) :
    grmProbabilityPP θ innovItemPP.discrimination innovItemPP.difficulty_thresholds 5 =
      safeLogistic (1.4 * (θ - 1.3)) := by
  have hA : pyGet innovItemPP.difficulty_thresholds (-1) = some 1.3 := by
    simp [pyGet, innovItemPP]
  unfold grmProbabilityPP
  rw [if_neg (by decide), if_pos rfl, hA]
  norm_num [innovItemPP]

/-- The log-likelihood of the single response 5 to INNOV_001. -/
theorem logLikPP_single5 (θ : ℝ) :
    logLikPP [5] [innovItemPP] θ =
      if 0.001 < safeLogistic (1.4 * (θ - 1.3)) then
        Real.log (safeLogistic (1.4 * (θ - 1.3)))
      else Real.log 0.001 := by
  unfold logLikPP
  simp only [List.zip_cons_cons, List.zip_nil_left, List.foldl_cons, List.foldl_nil]
  rw [grmProbabilityPP_cat5_innov]
  split
  · exact zero_add _
  · exact zero_add _

/-- C3: the incremental per-response update and the batch grid-search
maximum-likelihood estimator disagree on the same single-response set: for
the response 5 to item INNOV_001 (discrimination 1.4, thresholds
[-1.2, -0.3, 0.4, 1.3]) starting from theta 0, `update_theta` returns
theta 0.2 while `estimate_theta` returns the grid maximizer 3.0 — the
required refinement equivalence fails on the code. -/
theorem updateThetaCat_ne_batch_estimate :
    (updateThetaCat 0 innovItemCat 5).1 = 0.2 ∧
    (estimateThetaPP [5] [innovItemPP]).1 = 3 ∧ (0.2 : ℝ) ≠ 3 := by
  refine ⟨?_, ?_, by norm_num⟩
  · have h4 : (4:ℤ) ≤ 5 := by norm_num
    simp only [updateThetaCat, if_pos h4]
    norm_num
  · have hp3 : (1/2:ℝ) ≤ safeLogistic (1.4 * ((3:ℝ) - 1.3)) :=
      safeLogistic_half_le (by norm_num) (by norm_num)
    have hfst : (estimateThetaPP [5] [innovItemPP]).1 =
        (bestSearch (logLikPP [5] [innovItemPP]) gridThetas (0, -999999)).1 := by
      unfold estimateThetaPP
      rfl
    have hstrict : ∀ t ∈ gridThetas, t ≠ 3 →
        logLikPP [5] [innovItemPP] t < logLikPP [5] [innovItemPP] 3 := by
      intro t ht hne3
      have ht3 : t ≤ 3 := gridThetas_le_three t ht
      have htm3 : -3 ≤ t := gridThetas_ge_neg_three t ht
      have htlt : t < 3 := lt_of_le_of_ne ht3 hne3
      have hmono : safeLogistic (1.4 * (t - 1.3)) < safeLogistic (1.4 * ((3:ℝ) - 1.3)) := by
        apply safeLogistic_strict_mid (by nlinarith) (by norm_num) (by nlinarith)
      rw [logLikPP_single5, logLikPP_single5]
      rw [if_pos (by linarith : (0.001:ℝ) < safeLogistic (1.4 * ((3:ℝ) - 1.3)))]
      split
      · rename_i hc
        exact Real.log_lt_log (lt_trans (by norm_num) hc) hmono
      · exact Real.log_lt_log (by norm_num) (by linarith)
    have hgt : -999999 < logLikPP [5] [innovItemPP] 3 := by
      rw [logLikPP_single5]
      rw [if_pos (by linarith)]
      have hll : Real.log (1/2) ≤ Real.log (safeLogistic (1.4 * ((3:ℝ) - 1.3))) :=
        Real.log_le_log (by norm_num) hp3
      have h2 : Real.log (1/2) = -Real.log 2 := by rw [one_div, Real.log_inv]
      have h3 : Real.log 2 ≤ 1 := by
        have hx := Real.log_le_sub_one_of_pos (by norm_num : (0:ℝ) < 2)
        linarith
      linarith
    rcases bestSearch_spec (logLikPP [5] [innovItemPP]) gridThetas (0, -999999) with
      ⟨he, hle⟩ | ⟨hmem, hval, hgt2, hub, l1, l2, hsplit, hstrict2⟩
    · exact absurd (hle 3 gridThetas_mem_three) (not_le.mpr hgt)
    · rw [hfst]
      by_contra hne0
      have h1 : logLikPP [5] [innovItemPP]
          (bestSearch (logLikPP [5] [innovItemPP]) gridThetas (0, -999999)).1 <
          logLikPP [5] [innovItemPP] 3 := hstrict _ hmem hne0
      have h2 : logLikPP [5] [innovItemPP] 3 ≤
          (bestSearch (logLikPP [5] [innovItemPP]) gridThetas (0, -999999)).2 :=
        hub 3 gridThetas_mem_three
      rw [hval] at h2
      linarith

/-- C2 amended: the pure_python `grm_probability` sums to 1 up to the
flooring tolerance: for every theta and every valid 4-threshold item the
five category probabilities sum to a value in [1, 1 + 3*0.001] (only the
three middle categories are floored). -/
theorem grmProbabilityPP_sum_near_one (θ a b1 b2 b3 b4 : ℝ)
    (ha : 0 < a) (h12 : b1 < b2) (h23 : b2 < b3) (h34 : b3 < b4) :
    1 ≤ grmProbabilityPP θ a [b1, b2, b3, b4] 1 + grmProbabilityPP θ a [b1, b2, b3, b4] 2 +
        grmProbabilityPP θ a [b1, b2, b3, b4] 3 + grmProbabilityPP θ a [b1, b2, b3, b4] 4 +
        grmProbabilityPP θ a [b1, b2, b3, b4] 5 ∧
    grmProbabilityPP θ a [b1, b2, b3, b4] 1 + grmProbabilityPP θ a [b1, b2, b3, b4] 2 +
        grmProbabilityPP θ a [b1, b2, b3, b4] 3 + grmProbabilityPP θ a [b1, b2, b3, b4] 4 +
        grmProbabilityPP θ a [b1, b2, b3, b4] 5 ≤ 1 + 3 * 0.001 := by
  have e1 : grmProbabilityPP θ a [b1, b2, b3, b4] 1 = 1 - safeLogistic (a * (θ - b1)) := by
    unfold grmProbabilityPP
    rw [if_pos rfl]
    have hA : pyGet [b1, b2, b3, b4] 0 = some b1 := by simp [pyGet]
    rw [hA]
    exact safeLogistic_neg _
  have e2 : grmProbabilityPP θ a [b1, b2, b3, b4] 2 =
      max 0.001 (safeLogistic (a * (θ - b1)) - safeLogistic (a * (θ - b2))) := by
    unfold grmProbabilityPP
    rw [if_neg (by decide), if_neg (by decide)]
    have hA : pyGet [b1, b2, b3, b4] ((2:ℤ) - 2) = some b1 := by
      rw [show ((2:ℤ) - 2) = 0 by norm_num]
      simp [pyGet]
    have hB : pyGet [b1, b2, b3, b4] ((2:ℤ) - 1) = some b2 := by
      rw [show ((2:ℤ) - 1) = 1 by norm_num]
      simp [pyGet]
    rw [hA, hB]
  have e3 : grmProbabilityPP θ a [b1, b2, b3, b4] 3 =
      max 0.001 (safeLogistic (a * (θ - b2)) - safeLogistic (a * (θ - b3))) := by
    unfold grmProbabilityPP
    rw [if_neg (by decide), if_neg (by decide)]
    have hA : pyGet [b1, b2, b3, b4] ((3:ℤ) - 2) = some b2 := by
      rw [show ((3:ℤ) - 2) = 1 by norm_num]
      simp [pyGet]
    have hB : pyGet [b1, b2, b3, b4] ((3:ℤ) - 1) = some b3 := by
      rw [show ((3:ℤ) - 1) = 2 by norm_num]
      simp [pyGet]
    rw [hA, hB]
  have e4 : grmProbabilityPP θ a [b1, b2, b3, b4] 4 =
      max 0.001 (safeLogistic (a * (θ - b3)) - safeLogistic (a * (θ - b4))) := by
    unfold grmProbabilityPP
    rw [if_neg (by decide), if_neg (by decide)]
    have hA : pyGet [b1, b2, b3, b4] ((4:ℤ) - 2) = some b3 := by
      rw [show ((4:ℤ) - 2) = 2 by norm_num]
      simp [pyGet]
    have hB : pyGet [b1, b2, b3, b4] ((4:ℤ) - 1) = some b4 := by
      rw [show ((4:ℤ) - 1) = 3 by norm_num]
      simp [pyGet]
    rw [hA, hB]
  have e5 : grmProbabilityPP θ a [b1, b2, b3, b4] 5 = safeLogistic (a * (θ - b4)) := by
    unfold grmProbabilityPP
    rw [if_neg (by decide), if_pos rfl]
    have hA : pyGet [b1, b2, b3, b4] (-1) = some b4 := by simp [pyGet]
    rw [hA]
  rw [e1, e2, e3, e4, e5]
  have hm12 : safeLogistic (a * (θ - b2)) ≤ safeLogistic (a * (θ - b1)) :=
    safeLogistic_mono (by nlinarith)
  have hm23 : safeLogistic (a * (θ - b3)) ≤ safeLogistic (a * (θ - b2)) :=
    safeLogistic_mono (by nlinarith)
  have hm34 : safeLogistic (a * (θ - b4)) ≤ safeLogistic (a * (θ - b3)) :=
    safeLogistic_mono (by nlinarith)
  have hx2 := le_max_right (0.001:ℝ)
    (safeLogistic (a * (θ - b1)) - safeLogistic (a * (θ - b2)))
  have hx3 := le_max_right (0.001:ℝ)
    (safeLogistic (a * (θ - b2)) - safeLogistic (a * (θ - b3)))
  have hx4 := le_max_right (0.001:ℝ)
    (safeLogistic (a * (θ - b3)) - safeLogistic (a * (θ - b4)))
  have hy2 : max 0.001 (safeLogistic (a * (θ - b1)) - safeLogistic (a * (θ - b2))) ≤
      safeLogistic (a * (θ - b1)) - safeLogistic (a * (θ - b2)) + 0.001 :=
    max_le (by linarith) (by linarith)
  have hy3 : max 0.001 (safeLogistic (a * (θ - b2)) - safeLogistic (a * (θ - b3))) ≤
      safeLogistic (a * (θ - b2)) - safeLogistic (a * (θ - b3)) + 0.001 :=
    max_le (by linarith) (by linarith)
  have hy4 : max 0.001 (safeLogistic (a * (θ - b3)) - safeLogistic (a * (θ - b4))) ≤
      safeLogistic (a * (θ - b3)) - safeLogistic (a * (θ - b4)) + 0.001 :=
    max_le (by linarith) (by linarith)
  constructor
  · linarith
  · linarith

/-- Witness for the hypotheses of the C2 amended theorem at theta 0,
discrimination 1 and thresholds [-2, -1, 1, 2]. -/
theorem grmProbabilityPP_sum_near_one_witness :
    ((0:ℝ) < 1 ∧ (-2:ℝ) < -1 ∧ (-1:ℝ) < 1 ∧ (1:ℝ) < 2) ∧
    (1 ≤ grmProbabilityPP 0 1 [-2, -1, 1, 2] 1 + grmProbabilityPP 0 1 [-2, -1, 1, 2] 2 +
         grmProbabilityPP 0 1 [-2, -1, 1, 2] 3 + grmProbabilityPP 0 1 [-2, -1, 1, 2] 4 +
         grmProbabilityPP 0 1 [-2, -1, 1, 2] 5 ∧
     grmProbabilityPP 0 1 [-2, -1, 1, 2] 1 + grmProbabilityPP 0 1 [-2, -1, 1, 2] 2 +
         grmProbabilityPP 0 1 [-2, -1, 1, 2] 3 + grmProbabilityPP 0 1 [-2, -1, 1, 2] 4 +
         grmProbabilityPP 0 1 [-2, -1, 1, 2] 5 ≤ 1 + 3 * 0.001) :=
  ⟨⟨by norm_num, by norm_num, by norm_num, by norm_num⟩,
   grmProbabilityPP_sum_near_one 0 1 (-2) (-1) 1 2 (by norm_num) (by norm_num) (by norm_num)
     (by norm_num)⟩

/-- Evaluation of the irt_cat `grm_probability` at the five valid categories
of a 4-threshold item: the cumulative list is [0, F1, F2, F3, F4, 1] with
Fj the logistic at threshold j, and each category is the floored difference
of adjacent entries. -/
theorem grmProbabilityCat_eval (θ : ℝ) (item : PersonalityItem) (b1 b2 b3 b4 : ℝ)
    (hbs : item.difficulty_thresholds = [b1, b2, b3, b4]) :
    grmProbabilityCat θ item 1 =
      max (safeLogistic (item.discrimination * (θ - b1)) - 0) 0.001 ∧
    grmProbabilityCat θ item 2 =
      max (safeLogistic (item.discrimination * (θ - b2)) -
           safeLogistic (item.discrimination * (θ - b1))) 0.001 ∧
    grmProbabilityCat θ item 3 =
      max (safeLogistic (item.discrimination * (θ - b3)) -
           safeLogistic (item.discrimination * (θ - b2))) 0.001 ∧
    grmProbabilityCat θ item 4 =
      max (safeLogistic (item.discrimination * (θ - b4)) -
           safeLogistic (item.discrimination * (θ - b3))) 0.001 ∧
    grmProbabilityCat θ item 5 =
      max (1 - safeLogistic (item.discrimination * (θ - b4))) 0.001 := by
  refine ⟨?_, ?_, ?_, ?_, ?_⟩ <;>
  · unfold grmProbabilityCat
    rw [hbs]
    simp only [List.map_cons, List.map_nil, List.cons_append, List.nil_append,
      List.length_cons, List.length_nil]
    rw [if_neg (by norm_num)]
    norm_num [List.getD, List.get?, Int.toNat_ofNat]

/-- C2 counterexample: for the irt_cat engine the five category
probabilities of the valid demo item at theta 0 sum to more than 1.1, far
outside any flooring tolerance: the cumulative list is decreasing, so every
middle raw difference is negative and gets floored to 0.001 while the two
boundary categories each exceed 0.7. -/
theorem grmProbabilityCat_sum_exceeds_one :
    (11/10 : ℝ) <
      grmProbabilityCat 0 demoItemCat 1 + grmProbabilityCat 0 demoItemCat 2 +
      grmProbabilityCat 0 demoItemCat 3 + grmProbabilityCat 0 demoItemCat 4 +
      grmProbabilityCat 0 demoItemCat 5 ∧
    0 < demoItemCat.discrimination ∧
    demoItemCat.difficulty_thresholds.Chain' (· < ·) := by
  refine ⟨?_, by norm_num [demoItemCat], by norm_num [demoItemCat, List.chain'_cons]⟩
  obtain ⟨e1, e2, e3, e4, e5⟩ :=
    grmProbabilityCat_eval 0 demoItemCat (-1.5) (-0.5) 0.5 1.5 (by norm_num [demoItemCat])
  rw [e1, e2, e3, e4, e5]
  have hd : demoItemCat.discrimination = 1.2 := by norm_num [demoItemCat]
  rw [hd]
  have ha1 : (1.2:ℝ) * ((0:ℝ) - (-1.5)) = 1.8 := by norm_num
  have ha2 : (1.2:ℝ) * ((0:ℝ) - (-0.5)) = 0.6 := by norm_num
  have ha3 : (1.2:ℝ) * ((0:ℝ) - 0.5) = -0.6 := by norm_num
  have ha4 : (1.2:ℝ) * ((0:ℝ) - 1.5) = -1.8 := by norm_num
  rw [ha1, ha2, ha3, ha4]
  have hsl18 : (14/19:ℝ) ≤ safeLogistic 1.8 := by
    rw [safeLogistic_eq_mid (by norm_num) (by norm_num)]
    have he : (2.8:ℝ) ≤ Real.exp 1.8 := by
      have hx := Real.add_one_le_exp (1.8:ℝ)
      linarith
    have hinv : Real.exp (-1.8) ≤ 5/14 := by
      rw [Real.exp_neg]
      have hi := inv_le_inv_of_le (by norm_num : (0:ℝ) < 2.8) he
      calc (Real.exp 1.8)⁻¹ ≤ (2.8:ℝ)⁻¹ := hi
        _ = 5/14 := by norm_num
    have hp : (0:ℝ) < 1 + Real.exp (-1.8) := by positivity
    rw [le_div_iff hp]
    linarith
  have hneg18 : safeLogistic (-1.8) = 1 - safeLogistic 1.8 := safeLogistic_neg 1.8
  have hm1 : safeLogistic 0.6 ≤ safeLogistic 1.8 := safeLogistic_mono (by norm_num)
  have hm2 : safeLogistic (-0.6) ≤ safeLogistic 0.6 := safeLogistic_mono (by norm_num)
  have hm3 : safeLogistic (-1.8) ≤ safeLogistic (-0.6) := safeLogistic_mono (by norm_num)
  have hc1 : max (safeLogistic 1.8 - 0) 0.001 = safeLogistic 1.8 - 0 :=
    max_eq_left (by linarith)
  have hc2 : max (safeLogistic 0.6 - safeLogistic 1.8) 0.001 = 0.001 :=
    max_eq_right (by linarith)
  have hc3 : max (safeLogistic (-0.6) - safeLogistic 0.6) 0.001 = 0.001 :=
    max_eq_right (by linarith)
  have hc4 : max (safeLogistic (-1.8) - safeLogistic (-0.6)) 0.001 = 0.001 :=
    max_eq_right (by linarith)
  have hc5 : max (1 - safeLogistic (-1.8)) 0.001 = 1 - safeLogistic (-1.8) := by
    apply max_eq_left
    rw [hneg18]
    linarith
  rw [hc1, hc2, hc3, hc4, hc5, hneg18]
  linarith
